import Mathlib

/-!
Verification of the packet-log core (logpkt.c) of sslsplit against its
specification.  The development shallowly embeds the functions of
src/logpkt.c: the pcap container management (logpkt_pcap_open_fd and
logpkt_write_global_pcap_hdr), the stateful packet synthesis
(logpkt_build_packet, logpkt_write_packet, logpkt_write_payload), the
IPv4 text-address conversion (logpkt_str2ip46addr via inet_addr), and
the ARP-based hardware-address resolution (logpkt_recv_arp_reply,
logpkt_ether_lookup).  Machine integers are modelled as Nat with
explicit reduction modulo 2^32 where the C code uses uint32_t
arithmetic; external effects (PRNG draws, libnet layer construction
results, record dispatch results, observed frames) are supplied as
explicit oracle inputs so that the control flow of the C code can be
reproduced exactly.
-/

/-- The modulus 2^32 of the uint32_t counters of pcap_packet_t. -/
def U32 : Nat := 4294967296

/-- MSS_VAL from logpkt.c line 50: the maximum segment size. -/
def MSS_VAL : Nat := 1420

/-- TH_SYN flag bit of the TCP header (tcp.h). -/
def TH_SYN : Nat := 2

/-- TH_ACK flag bit of the TCP header (tcp.h). -/
def TH_ACK : Nat := 16

/-- PCAP_MAGIC from logpkt.c line 72. -/
def PCAP_MAGIC : Nat := 0xa1b2c3d4

/-- INADDR_NONE, the value inet_addr returns on a conversion failure. -/
def INADDR_NONE : Nat := 0xffffffff

/-!
## Capture container (logpkt_write_global_pcap_hdr, logpkt_pcap_open_fd)

The open file descriptor is modelled as a byte list together with the
current file offset.  The model captures the successful outcomes of
lseek, read, write and ftruncate (the claims under study are stated
absent genuine I/O failures); a read simply returns the bytes that are
available, which is exactly the POSIX behaviour the code observes via
its byte-count check.  The machine is little-endian, so the packed
struct fields are serialized in little-endian order.
-/

/-- A file descriptor open on a regular file: its content and offset. -/
structure FileState where
  content : List Nat
  pos : Nat

deriving instance DecidableEq, Repr for FileState

/-- write(2) at the current offset (overwriting, extending at the end). -/
def fileWrite (fs : FileState) (bytes : List Nat) : FileState :=
  { content := fs.content.take fs.pos ++ bytes ++ fs.content.drop (fs.pos + bytes.length),
    pos := fs.pos + bytes.length }

/-- Little-endian serialization of a 16-bit field. -/
def le16 (v : Nat) : List Nat := [v % 256, v / 256 % 256]

/-- Little-endian serialization of a 32-bit field. -/
def le32 (v : Nat) : List Nat :=
  [v % 256, v / 256 % 256, v / 65536 % 256, v / 16777216 % 256]

/-- Little-endian reading of a 32-bit field from a byte list. -/
def le32dec (l : List Nat) : Nat :=
  l.getD 0 0 + l.getD 1 0 * 256 + l.getD 2 0 * 65536 + l.getD 3 0 * 16777216

/-- The 24 bytes of the pcap_file_hdr_t that
logpkt_write_global_pcap_hdr assembles: magic PCAP_MAGIC, version
major 2, version minor 4, thiszone 0, sigfigs 0, snaplen 1500,
network 1 (Ethernet). -/
def pcap_file_hdr_bytes : List Nat :=
  le32 PCAP_MAGIC ++ le16 2 ++ le16 4 ++ le32 0 ++ le32 0 ++ le32 1500 ++ le32 1

/-- logpkt_write_global_pcap_hdr (logpkt.c 74-86): write the global
header at the current offset; 0 on success. -/
def logpkt_write_global_pcap_hdr (fs : FileState) : Int × FileState :=
  (0, fileWrite fs pcap_file_hdr_bytes)

/-- logpkt_pcap_open_fd (logpkt.c 99-124).  Seek to the end to learn
the size; on a non-empty file seek back, read one header-sized block
(24 bytes; fewer available means the byte-count check fails with -1),
compare the magic field, and either seek to the end (match) or
truncate to zero and fall through to writing a fresh global header. -/
def logpkt_pcap_open_fd (fs : FileState) : Int × FileState :=
  let fs1 : FileState := { content := fs.content, pos := fs.content.length }
  if 0 < fs1.content.length then
    let fs2 : FileState := { content := fs1.content, pos := 0 }
    let hdr := fs2.content.take 24
    let fs3 : FileState := { content := fs2.content, pos := hdr.length }
    if hdr.length ≠ 24 then (-1, fs3)
    else if le32dec (hdr.take 4) = PCAP_MAGIC then
      (0, { content := fs3.content, pos := fs3.content.length })
    else
      logpkt_write_global_pcap_hdr { content := [], pos := 0 }
  else
    logpkt_write_global_pcap_hdr fs1

example : logpkt_pcap_open_fd { content := [], pos := 0 } =
    (0, { content := pcap_file_hdr_bytes, pos := 24 }) := by decide

example : logpkt_pcap_open_fd { content := [0], pos := 0 } =
    (-1, { content := [0], pos := 1 }) := by decide

/-!
## Packet synthesis (logpkt_build_packet, logpkt_write_packet,
logpkt_write_payload)

pcap_packet_t is the per-half-connection context; its uint32_t seq and
ack counters are Nat values kept below 2^32 by explicit reduction.
The libnet collaborator and the record sink are modelled by an oracle
environment indexed by the running count of logpkt_write_packet calls:
randSeq gives the libnet_get_prand(LIBNET_PRu32) draw used when TH_SYN
forces a fresh sequence number, tcpOk/ipOk/ethOk give the outcome of
the three layer-construction calls, and dispatchOk gives the outcome
of writing the coalesced frame to the sink.  A successfully dispatched
frame is recorded in an observation trace, tagged with whether it was
built from the receiver context (the trailing pure-ACK frame).
-/

/-- pcap_packet_t (logpkt.h): address family, endpoints, counters. -/
structure PcapCtx where
  af : Nat
  src_ip : Nat
  dst_ip : Nat
  src_port : Nat
  dst_port : Nat
  seq : Nat
  ack : Nat

deriving instance DecidableEq, Repr for PcapCtx

/-- The TCP-level content handed to libnet_build_tcp for one frame. -/
structure Frame where
  src_port : Nat
  dst_port : Nat
  seq : Nat
  ack : Nat
  flags : Nat
  payload : List Nat

deriving instance DecidableEq, Repr for Frame

/-- Oracles for the external collaborators, indexed by the running
count of logpkt_write_packet calls. -/
structure Env where
  randSeq : Nat → Nat
  tcpOk : Nat → Bool
  ipOk : Nat → Bool
  ethOk : Nat → Bool
  dispatchOk : Nat → Bool

/-- logpkt_build_packet (logpkt.c 271-353).  A TH_SYN flag first
overwrites ctx.seq with a fresh 32-bit random draw; then the TCP, IP
(v4 or v6 by ctx.af) and Ethernet layers are built in that order, any
failure returning -1 (here: none) with no further state change; on
success ctx.seq is advanced by the payload length modulo 2^32 and the
frame content given to libnet_build_tcp is returned. -/
def logpkt_build_packet (env : Env) (n : Nat) (ctx : PcapCtx) (flags : Nat)
    (payload : List Nat) : Option Frame × PcapCtx :=
  let ctx1 := if flags &&& TH_SYN ≠ 0 then
    { ctx with seq := env.randSeq n % U32 } else ctx
  if env.tcpOk n = false then (none, ctx1)
  else if env.ipOk n = false then (none, ctx1)
  else if env.ethOk n = false then (none, ctx1)
  else
    (some { src_port := ctx1.src_port, dst_port := ctx1.dst_port,
            seq := ctx1.seq, ack := ctx1.ack, flags := flags, payload := payload },
     { ctx1 with seq := (ctx1.seq + payload.length) % U32 })

/-- logpkt_write_packet (logpkt.c 355-379): build the packet, then
dispatch it (pcap record write or live libnet_write); the frame counts
as dispatched only when both steps succeed. -/
def logpkt_write_packet (env : Env) (n : Nat) (ctx : PcapCtx) (flags : Nat)
    (payload : List Nat) : Option Frame × PcapCtx :=
  match logpkt_build_packet env n ctx flags payload with
  | (none, ctx1) => (none, ctx1)
  | (some f, ctx1) => if env.dispatchOk n then (some f, ctx1) else (none, ctx1)

/-- The while loop of logpkt_write_payload (logpkt.c 248-261) followed
by the trailing pure-ACK write (263-267), rendered as structural
recursion on a fuel argument.  Each iteration consumes at least one
byte of the payload, so fuel equal to the payload length makes the
out-of-fuel branch unreachable; it is present only to make the
recursion structural.  The trace lists the successfully dispatched
frames in order, tagged true when built from the receiver context. -/
def logpkt_write_payload_go (env : Env) :
    Nat → Nat → PcapCtx → PcapCtx → Nat → List Nat →
    Bool × PcapCtx × PcapCtx × List (Bool × Frame)
  | _, n, a, b, _flags, [] =>
    match logpkt_write_packet env n b TH_ACK [] with
    | (none, b1) => (false, a, b1, [])
    | (some f, b1) => (true, a, b1, [(true, f)])
  | 0, _, a, b, _, _ :: _ => (false, a, b, [])
  | fuel+1, n, a, b, flags, p@(_ :: _) =>
    let chunk := p.take MSS_VAL
    match logpkt_write_packet env n a flags chunk with
    | (none, a1) => (false, a1, b, [])
    | (some f, a1) =>
      let b1 := { b with ack := (b.ack + chunk.length) % U32 }
      match logpkt_write_payload_go env fuel (n+1) a1 b1 flags (p.drop MSS_VAL) with
      | (ok, a2, b2, tr) => (ok, a2, b2, (false, f) :: tr)

/-- logpkt_write_payload (logpkt.c 241-269): send the payload in
MSS_VAL-sized chunks from context a, crediting to context b the
acknowledgment of each dispatched chunk, then send one pure-ACK frame
from context b; fails on the first write failure. -/
def logpkt_write_payload (env : Env) (n : Nat) (a b : PcapCtx) (flags : Nat)
    (payload : List Nat) : Bool × PcapCtx × PcapCtx × List (Bool × Frame) :=
  logpkt_write_payload_go env payload.length n a b flags payload

/-- The payload chunks the loop of logpkt_write_payload carves out of
the payload, under the same fuel convention. -/
def mssChunks : Nat → List Nat → List (List Nat)
  | _, [] => []
  | 0, _ :: _ => []
  | fuel+1, p@(_ :: _) => p.take MSS_VAL :: mssChunks fuel (p.drop MSS_VAL)

/-- Payloads of the data frames (built from the sender context) of a
dispatch trace. -/
def dataPayloads (tr : List (Bool × Frame)) : List (List Nat) :=
  (tr.filter (fun x => !x.1)).map (fun x => x.2.payload)

/-- Sequence fields of the data frames of a dispatch trace. -/
def dataSeqs (tr : List (Bool × Frame)) : List Nat :=
  (tr.filter (fun x => !x.1)).map (fun x => x.2.seq)

/-- An all-success oracle environment with a given PRNG stream. -/
def envOk (r : Nat → Nat) : Env :=
  { randSeq := r, tcpOk := fun _ => true, ipOk := fun _ => true,
    ethOk := fun _ => true, dispatchOk := fun _ => true }

/-- The concrete scenario of the spec: contexts A (seq 1000) and B
(ack 2000), payload "hello", flags PSH and ACK. -/
example :
    logpkt_write_payload (envOk (fun _ => 77)) 0
      { af := 2, src_ip := 1, dst_ip := 2, src_port := 80, dst_port := 443,
        seq := 1000, ack := 0 }
      { af := 2, src_ip := 2, dst_ip := 1, src_port := 443, dst_port := 80,
        seq := 5000, ack := 2000 }
      24 [104, 101, 108, 108, 111] =
    (true,
     { af := 2, src_ip := 1, dst_ip := 2, src_port := 80, dst_port := 443,
       seq := 1005, ack := 0 },
     { af := 2, src_ip := 2, dst_ip := 1, src_port := 443, dst_port := 80,
       seq := 5000, ack := 2005 },
     [(false, { src_port := 80, dst_port := 443, seq := 1000, ack := 0,
                flags := 24, payload := [104, 101, 108, 108, 111] }),
      (true, { src_port := 443, dst_port := 80, seq := 5000, ack := 2005,
               flags := TH_ACK, payload := [] })]) := by decide

/-!
## Helper lemmas about the segmentation loop
-/

theorem mssChunks_nil (fuel : Nat) : mssChunks fuel [] = [] := by
  cases fuel <;> rfl

theorem mssChunks_flatten : ∀ (fuel : Nat) (p : List Nat), p.length ≤ fuel →
    (mssChunks fuel p).flatten = p := by
  intro fuel
  induction fuel with
  | zero =>
    intro p hp
    have hnil : p = [] := List.eq_nil_of_length_eq_zero (Nat.le_zero.mp hp)
    subst hnil
    simp [mssChunks]
  | succ fuel ih =>
    intro p hp
    match p with
    | [] => simp [mssChunks]
    | x :: xs =>
      have hlen : (List.drop MSS_VAL (x :: xs)).length ≤ fuel := by
        simp only [List.length_drop, List.length_cons, MSS_VAL]
        simp only [List.length_cons] at hp
        omega
      simp only [mssChunks, List.flatten_cons]
      rw [ih _ hlen, List.take_append_drop]

theorem mssChunks_length : ∀ (fuel : Nat) (p : List Nat), p.length ≤ fuel →
    (mssChunks fuel p).length = (p.length + (MSS_VAL - 1)) / MSS_VAL := by
  intro fuel
  induction fuel with
  | zero =>
    intro p hp
    have hnil : p = [] := List.eq_nil_of_length_eq_zero (Nat.le_zero.mp hp)
    subst hnil
    simp [mssChunks, MSS_VAL]
  | succ fuel ih =>
    intro p hp
    match p with
    | [] => simp [mssChunks, MSS_VAL]
    | x :: xs =>
      have hlen : (List.drop MSS_VAL (x :: xs)).length ≤ fuel := by
        simp only [List.length_drop, List.length_cons, MSS_VAL]
        simp only [List.length_cons] at hp
        omega
      simp only [mssChunks, List.length_cons]
      rw [ih _ hlen]
      simp only [List.length_drop, List.length_cons, MSS_VAL]
      omega

theorem mssChunks_le : ∀ (fuel : Nat) (p : List Nat) (c : List Nat),
    c ∈ mssChunks fuel p → c.length ≤ MSS_VAL := by
  intro fuel
  induction fuel with
  | zero =>
    intro p c hc
    match p with
    | [] => simp [mssChunks] at hc
    | _ :: _ => simp [mssChunks] at hc
  | succ fuel ih =>
    intro p c hc
    match p with
    | [] => simp [mssChunks] at hc
    | x :: xs =>
      simp only [mssChunks, List.mem_cons] at hc
      rcases hc with hc | hc
      · subst hc
        rw [List.length_take]
        exact Nat.min_le_left _ _
      · exact ih _ _ hc

theorem logpkt_write_packet_some (env : Env) (n : Nat) (ctx : PcapCtx) (flags : Nat)
    (payload : List Nat) (f : Frame) (ctx1 : PcapCtx)
    (h : logpkt_write_packet env n ctx flags payload = (some f, ctx1)) :
    f = { src_port := ctx.src_port, dst_port := ctx.dst_port,
          seq := if flags &&& TH_SYN ≠ 0 then env.randSeq n % U32 else ctx.seq,
          ack := ctx.ack, flags := flags, payload := payload } ∧
    ctx1 = { ctx with seq := (f.seq + payload.length) % U32 } := by
  unfold logpkt_write_packet logpkt_build_packet at h
  split_ifs at h with hsyn htcp hip heth hd <;>
    simp only [] at h <;>
    simp [Prod.ext_iff, hsyn] at h ⊢ <;>
    obtain ⟨h1, h2⟩ := h <;>
    subst h1 <;> subst h2 <;> simp

theorem logpkt_write_packet_ack (env : Env) (n : Nat) (ctx : PcapCtx) (flags : Nat)
    (payload : List Nat) :
    ((logpkt_write_packet env n ctx flags payload).2).ack = ctx.ack := by
  unfold logpkt_write_packet logpkt_build_packet
  split_ifs <;> simp

/-- The trailing pure-ACK frame logpkt_write_payload emits from the
receiver context b after logging a payload p. -/
def ackFrameOf (b : PcapCtx) (p : List Nat) : Frame :=
  { src_port := b.src_port, dst_port := b.dst_port, seq := b.seq,
    ack := (b.ack + p.length) % U32, flags := TH_ACK, payload := [] }

theorem writePayloadGo_nil_spec (env : Env) (flags : Nat) (fuel n : Nat) (a b : PcapCtx)
    (hb : b.ack < U32)
    (hs : (logpkt_write_payload_go env fuel n a b flags []).1 = true) :
    dataPayloads (logpkt_write_payload_go env fuel n a b flags []).2.2.2 = [] ∧
    ((logpkt_write_payload_go env fuel n a b flags []).2.2.2).map Prod.fst = [true] ∧
    ((logpkt_write_payload_go env fuel n a b flags []).2.2.2).getLast?
      = some (true, ackFrameOf b []) ∧
    (logpkt_write_payload_go env fuel n a b flags []).2.2.1.ack = (b.ack + (0:Nat)) % U32 := by
  rcases hwp : logpkt_write_packet env n b TH_ACK [] with ⟨_ | f, b1⟩
  · simp only [logpkt_write_payload_go, hwp] at hs
    exact Bool.noConfusion hs
  · obtain ⟨hf, hb1⟩ := logpkt_write_packet_some env n b TH_ACK [] f b1 hwp
    have hsyn : ¬(TH_ACK &&& TH_SYN ≠ 0) := by decide
    rw [if_neg hsyn] at hf
    simp only [logpkt_write_payload_go, hwp]
    refine ⟨by simp [dataPayloads], by simp, ?_, ?_⟩
    · subst hf
      simp [ackFrameOf, Nat.mod_eq_of_lt hb]
    · subst hb1
      simp [Nat.mod_eq_of_lt hb, hf]

theorem writePayloadGo_spec (env : Env) (flags : Nat) :
    ∀ (fuel : Nat) (p : List Nat) (n : Nat) (a b : PcapCtx),
    p.length ≤ fuel → b.ack < U32 →
    (logpkt_write_payload_go env fuel n a b flags p).1 = true →
    dataPayloads (logpkt_write_payload_go env fuel n a b flags p).2.2.2 = mssChunks fuel p ∧
    ((logpkt_write_payload_go env fuel n a b flags p).2.2.2).map Prod.fst
      = List.replicate (mssChunks fuel p).length false ++ [true] ∧
    ((logpkt_write_payload_go env fuel n a b flags p).2.2.2).getLast?
      = some (true, ackFrameOf b p) ∧
    (logpkt_write_payload_go env fuel n a b flags p).2.2.1.ack = (b.ack + p.length) % U32 := by
  intro fuel
  induction fuel with
  | zero =>
    intro p n a b hp hb hs
    have hnil : p = [] := List.eq_nil_of_length_eq_zero (Nat.le_zero.mp hp)
    subst hnil
    have h0 := writePayloadGo_nil_spec env flags 0 n a b hb hs
    simpa [mssChunks] using h0
  | succ fuel ih =>
    intro p n a b hp hb hs
    match p with
    | [] =>
      have h0 := writePayloadGo_nil_spec env flags (fuel + 1) n a b hb hs
      simpa [mssChunks_nil] using h0
    | x :: xs =>
      rcases hwp : logpkt_write_packet env n a flags (List.take MSS_VAL (x :: xs))
        with ⟨_ | f, a1⟩
      · simp only [logpkt_write_payload_go, hwp] at hs
        exact Bool.noConfusion hs
      · obtain ⟨hf, ha1⟩ := logpkt_write_packet_some env n a flags _ f a1 hwp
        have hchunklen : (List.take MSS_VAL (x :: xs)).length
            + (List.drop MSS_VAL (x :: xs)).length = (x :: xs).length := by
          simp only [List.length_take, List.length_drop, List.length_cons, MSS_VAL]
          omega
        have hp1 : (List.drop MSS_VAL (x :: xs)).length ≤ fuel := by
          simp only [List.length_drop, List.length_cons, MSS_VAL]
          simp only [List.length_cons] at hp
          omega
        have hb1 : ((b.ack + (List.take MSS_VAL (x :: xs)).length) % U32) < U32 :=
          Nat.mod_lt _ (by norm_num [U32])
        rcases hinner : logpkt_write_payload_go env fuel (n + 1) a1
            { b with ack := (b.ack + (List.take MSS_VAL (x :: xs)).length) % U32 }
            flags (List.drop MSS_VAL (x :: xs)) with ⟨ok, a2, b2, tr⟩
        simp only [logpkt_write_payload_go, hwp, hinner] at hs ⊢
        have ihr := ih (List.drop MSS_VAL (x :: xs)) (n + 1) a1
          { b with ack := (b.ack + (List.take MSS_VAL (x :: xs)).length) % U32 }
          hp1 hb1 (by rw [hinner]; exact hs)
        rw [hinner] at ihr
        obtain ⟨ih1, ih2, ih3, ih4⟩ := ihr
        have hacksum : ((b.ack + (List.take MSS_VAL (x :: xs)).length) % U32
            + (List.drop MSS_VAL (x :: xs)).length) % U32
            = (b.ack + (x :: xs).length) % U32 := by
          rw [Nat.mod_add_mod, ← hchunklen, Nat.add_assoc]
        have htrne : tr ≠ [] := by
          intro hemp
          rw [hemp] at ih2
          simp at ih2
        refine ⟨?_, ?_, ?_, ?_⟩
        · simp only [dataPayloads, List.filter_cons, Bool.not_false, if_pos] at ih1 ⊢
          simp only [List.map_cons, ih1, mssChunks, hf]
        · dsimp only at ih2
          simp only [mssChunks, List.length_cons, List.replicate_succ, List.cons_append,
            List.map_cons, ih2]
        · rcases tr with _ | ⟨y, ys⟩
          · exact absurd rfl htrne
          · rw [List.getLast?_cons_cons]
            dsimp only at ih3
            rw [ih3]
            simp only [ackFrameOf]
            rw [hacksum]
        · dsimp only at ih4
          rw [ih4]
          exact hacksum

theorem writePayloadGo_nil_a (env : Env) (flags fuel n : Nat) (a b : PcapCtx) :
    (logpkt_write_payload_go env fuel n a b flags []).2.1 = a := by
  rcases hwp : logpkt_write_packet env n b TH_ACK [] with ⟨_ | f, b1⟩ <;>
    simp [logpkt_write_payload_go, hwp]

theorem writePayloadGo_nil_b_ack (env : Env) (flags fuel n : Nat) (a b : PcapCtx) :
    (logpkt_write_payload_go env fuel n a b flags []).2.2.1.ack = b.ack := by
  have hack := logpkt_write_packet_ack env n b TH_ACK []
  rcases hwp : logpkt_write_packet env n b TH_ACK [] with ⟨_ | f, b1⟩ <;>
    rw [hwp] at hack <;>
    simp [logpkt_write_payload_go, hwp] <;>
    exact hack

theorem writePayloadGo_nil_data (env : Env) (flags fuel n : Nat) (a b : PcapCtx) :
    dataPayloads (logpkt_write_payload_go env fuel n a b flags []).2.2.2 = [] := by
  rcases hwp : logpkt_write_packet env n b TH_ACK [] with ⟨_ | f, b1⟩ <;>
    simp [logpkt_write_payload_go, hwp, dataPayloads]

theorem writePayloadGo_seq (env : Env) (flags : Nat) (hflags : flags &&& TH_SYN = 0) :
    ∀ (fuel : Nat) (p : List Nat) (n : Nat) (a b : PcapCtx),
    p.length ≤ fuel → a.seq < U32 →
    (logpkt_write_payload_go env fuel n a b flags p).1 = true →
    (logpkt_write_payload_go env fuel n a b flags p).2.1.seq = (a.seq + p.length) % U32 := by
  intro fuel
  induction fuel with
  | zero =>
    intro p n a b hp ha _
    have hnil : p = [] := List.eq_nil_of_length_eq_zero (Nat.le_zero.mp hp)
    subst hnil
    rw [writePayloadGo_nil_a]
    simp [Nat.mod_eq_of_lt ha]
  | succ fuel ih =>
    intro p n a b hp ha hs
    match p with
    | [] =>
      rw [writePayloadGo_nil_a]
      simp [Nat.mod_eq_of_lt ha]
    | x :: xs =>
      rcases hwp : logpkt_write_packet env n a flags (List.take MSS_VAL (x :: xs))
        with ⟨_ | f, a1⟩
      · simp only [logpkt_write_payload_go, hwp] at hs
        exact Bool.noConfusion hs
      · obtain ⟨hf, ha1⟩ := logpkt_write_packet_some env n a flags _ f a1 hwp
        have hsyn : ¬(flags &&& TH_SYN ≠ 0) := by
          rw [hflags]
          exact fun hcon => hcon rfl
        rw [if_neg hsyn] at hf
        have hchunklen : (List.take MSS_VAL (x :: xs)).length
            + (List.drop MSS_VAL (x :: xs)).length = (x :: xs).length := by
          simp only [List.length_take, List.length_drop, List.length_cons, MSS_VAL]
          omega
        have hp1 : (List.drop MSS_VAL (x :: xs)).length ≤ fuel := by
          simp only [List.length_drop, List.length_cons, MSS_VAL]
          simp only [List.length_cons] at hp
          omega
        have ha1seq : a1.seq = (a.seq + (List.take MSS_VAL (x :: xs)).length) % U32 := by
          rw [ha1, hf]
        have ha1lt : a1.seq < U32 := by
          rw [ha1seq]
          exact Nat.mod_lt _ (by norm_num [U32])
        rcases hinner : logpkt_write_payload_go env fuel (n + 1) a1
            { b with ack := (b.ack + (List.take MSS_VAL (x :: xs)).length) % U32 }
            flags (List.drop MSS_VAL (x :: xs)) with ⟨ok, a2, b2, tr⟩
        simp only [logpkt_write_payload_go, hwp, hinner] at hs ⊢
        have ihr := ih (List.drop MSS_VAL (x :: xs)) (n + 1) a1
          { b with ack := (b.ack + (List.take MSS_VAL (x :: xs)).length) % U32 }
          hp1 ha1lt (by rw [hinner]; exact hs)
        rw [hinner] at ihr
        dsimp only at ihr
        rw [ihr, ha1seq, Nat.mod_add_mod, ← hchunklen, Nat.add_assoc]

theorem writePayloadGo_nil_seqs (env : Env) (flags fuel n : Nat) (a b : PcapCtx) :
    dataSeqs (logpkt_write_payload_go env fuel n a b flags []).2.2.2 = [] := by
  rcases hwp : logpkt_write_packet env n b TH_ACK [] with ⟨_ | f, b1⟩ <;>
    simp [logpkt_write_payload_go, hwp, dataSeqs]

theorem writePayloadGo_seq_syn (env : Env) (flags : Nat) (hflags : flags &&& TH_SYN ≠ 0) :
    ∀ (fuel : Nat) (p : List Nat) (n : Nat) (a b : PcapCtx),
    p.length ≤ fuel →
    (logpkt_write_payload_go env fuel n a b flags p).1 = true →
    dataSeqs (logpkt_write_payload_go env fuel n a b flags p).2.2.2
      = (List.range (mssChunks fuel p).length).map (fun i => env.randSeq (n + i) % U32) := by
  intro fuel
  induction fuel with
  | zero =>
    intro p n a b hp _
    have hnil : p = [] := List.eq_nil_of_length_eq_zero (Nat.le_zero.mp hp)
    subst hnil
    rw [writePayloadGo_nil_seqs]
    simp [mssChunks]
  | succ fuel ih =>
    intro p n a b hp hs
    match p with
    | [] =>
      rw [writePayloadGo_nil_seqs]
      simp [mssChunks_nil]
    | x :: xs =>
      rcases hwp : logpkt_write_packet env n a flags (List.take MSS_VAL (x :: xs))
        with ⟨_ | f, a1⟩
      · simp only [logpkt_write_payload_go, hwp] at hs
        exact Bool.noConfusion hs
      · obtain ⟨hf, ha1⟩ := logpkt_write_packet_some env n a flags _ f a1 hwp
        rw [if_pos hflags] at hf
        have hp1 : (List.drop MSS_VAL (x :: xs)).length ≤ fuel := by
          simp only [List.length_drop, List.length_cons, MSS_VAL]
          simp only [List.length_cons] at hp
          omega
        rcases hinner : logpkt_write_payload_go env fuel (n + 1) a1
            { b with ack := (b.ack + (List.take MSS_VAL (x :: xs)).length) % U32 }
            flags (List.drop MSS_VAL (x :: xs)) with ⟨ok, a2, b2, tr⟩
        simp only [logpkt_write_payload_go, hwp, hinner] at hs ⊢
        have ihr := ih (List.drop MSS_VAL (x :: xs)) (n + 1) a1
          { b with ack := (b.ack + (List.take MSS_VAL (x :: xs)).length) % U32 }
          hp1 (by rw [hinner]; exact hs)
        rw [hinner] at ihr
        dsimp only at ihr
        simp only [dataSeqs, List.filter_cons, Bool.not_false, if_pos, List.map_cons] at ihr ⊢
        rw [ihr, hf]
        simp only [mssChunks, List.length_cons, List.range_succ_eq_map, List.map_cons,
          List.map_map, List.cons.injEq]
        have hfun : (fun i => env.randSeq (n + 1 + i) % U32)
            = ((fun i => env.randSeq (n + i) % U32) ∘ Nat.succ) := by
          funext i
          simp only [Function.comp]
          congr 2
          omega
        refine ⟨by simp, ?_⟩
        rw [hfun]

theorem writePayloadGo_ack (env : Env) (flags : Nat) :
    ∀ (fuel : Nat) (p : List Nat) (n : Nat) (a b : PcapCtx),
    p.length ≤ fuel → b.ack < U32 →
    (logpkt_write_payload_go env fuel n a b flags p).2.2.1.ack
      = (b.ack + ((dataPayloads
          (logpkt_write_payload_go env fuel n a b flags p).2.2.2).map List.length).sum)
        % U32 := by
  intro fuel
  induction fuel with
  | zero =>
    intro p n a b hp hb
    have hnil : p = [] := List.eq_nil_of_length_eq_zero (Nat.le_zero.mp hp)
    subst hnil
    rw [writePayloadGo_nil_b_ack, writePayloadGo_nil_data]
    simp [Nat.mod_eq_of_lt hb]
  | succ fuel ih =>
    intro p n a b hp hb
    match p with
    | [] =>
      rw [writePayloadGo_nil_b_ack, writePayloadGo_nil_data]
      simp [Nat.mod_eq_of_lt hb]
    | x :: xs =>
      rcases hwp : logpkt_write_packet env n a flags (List.take MSS_VAL (x :: xs))
        with ⟨_ | f, a1⟩
      · simp only [logpkt_write_payload_go, hwp]
        simp [dataPayloads, Nat.mod_eq_of_lt hb]
      · obtain ⟨hf, ha1⟩ := logpkt_write_packet_some env n a flags _ f a1 hwp
        have hp1 : (List.drop MSS_VAL (x :: xs)).length ≤ fuel := by
          simp only [List.length_drop, List.length_cons, MSS_VAL]
          simp only [List.length_cons] at hp
          omega
        have hb1 : ((b.ack + (List.take MSS_VAL (x :: xs)).length) % U32) < U32 :=
          Nat.mod_lt _ (by norm_num [U32])
        rcases hinner : logpkt_write_payload_go env fuel (n + 1) a1
            { b with ack := (b.ack + (List.take MSS_VAL (x :: xs)).length) % U32 }
            flags (List.drop MSS_VAL (x :: xs)) with ⟨ok, a2, b2, tr⟩
        simp only [logpkt_write_payload_go, hwp, hinner]
        have ihr := ih (List.drop MSS_VAL (x :: xs)) (n + 1) a1
          { b with ack := (b.ack + (List.take MSS_VAL (x :: xs)).length) % U32 }
          hp1 hb1
        rw [hinner] at ihr
        dsimp only at ihr
        simp only [dataPayloads, List.filter_cons, Bool.not_false, if_pos,
          List.map_cons, List.sum_cons] at ihr ⊢
        rw [ihr, hf]
        dsimp only
        rw [Nat.mod_add_mod, ← Nat.add_assoc]

theorem writePayloadGo_data (env : Env) (flags : Nat) :
    ∀ (fuel : Nat) (p : List Nat) (n : Nat) (a b : PcapCtx),
    p.length ≤ fuel →
    (logpkt_write_payload_go env fuel n a b flags p).1 = true →
    dataPayloads (logpkt_write_payload_go env fuel n a b flags p).2.2.2
      = mssChunks fuel p := by
  intro fuel
  induction fuel with
  | zero =>
    intro p n a b hp _
    have hnil : p = [] := List.eq_nil_of_length_eq_zero (Nat.le_zero.mp hp)
    subst hnil
    rw [writePayloadGo_nil_data]
    simp [mssChunks]
  | succ fuel ih =>
    intro p n a b hp hs
    match p with
    | [] =>
      rw [writePayloadGo_nil_data]
      simp [mssChunks_nil]
    | x :: xs =>
      rcases hwp : logpkt_write_packet env n a flags (List.take MSS_VAL (x :: xs))
        with ⟨_ | f, a1⟩
      · simp only [logpkt_write_payload_go, hwp] at hs
        exact Bool.noConfusion hs
      · obtain ⟨hf, ha1⟩ := logpkt_write_packet_some env n a flags _ f a1 hwp
        have hp1 : (List.drop MSS_VAL (x :: xs)).length ≤ fuel := by
          simp only [List.length_drop, List.length_cons, MSS_VAL]
          simp only [List.length_cons] at hp
          omega
        rcases hinner : logpkt_write_payload_go env fuel (n + 1) a1
            { b with ack := (b.ack + (List.take MSS_VAL (x :: xs)).length) % U32 }
            flags (List.drop MSS_VAL (x :: xs)) with ⟨ok, a2, b2, tr⟩
        simp only [logpkt_write_payload_go, hwp, hinner] at hs ⊢
        have ihr := ih (List.drop MSS_VAL (x :: xs)) (n + 1) a1
          { b with ack := (b.ack + (List.take MSS_VAL (x :: xs)).length) % U32 }
          hp1 (by rw [hinner]; exact hs)
        rw [hinner] at ihr
        simp only [dataPayloads, List.filter_cons, Bool.not_false, if_pos,
          List.map_cons] at ihr ⊢
        rw [ihr, hf]
        simp [mssChunks]

/-- C1 counterexample input: sender context with sequence 5. -/
def c1ctxA : PcapCtx :=
  { af := 2, src_ip := 1, dst_ip := 2, src_port := 1, dst_port := 2, seq := 5, ack := 0 }

/-- C1 counterexample input: receiver context with acknowledgment 0. -/
def c1ctxB : PcapCtx :=
  { af := 2, src_ip := 2, dst_ip := 1, src_port := 2, dst_port := 1, seq := 9, ack := 0 }

/-- C1 counterexample input: receiver context whose acknowledgment
counter is at the top of the 32-bit range. -/
def c1ctxBtop : PcapCtx :=
  { af := 2, src_ip := 2, dst_ip := 1, src_port := 2, dst_port := 1, seq := 9,
    ack := 4294967295 }

/-- C1 is false as stated: (a) with the SYN flag set, a successful
send_payload leaves the sender sequence at the freshly drawn random
value plus the chunk length (here 0 + 3 = 3), not at its prior value
plus the payload length modulo 2^32 (which would be 8); (b) the
receiver acknowledgment is a 32-bit counter, so without reduction
modulo 2^32 the stated sum exceeds it on wrap-around. -/
theorem c1_counterexample :
    ((logpkt_write_payload (envOk (fun _ => 0)) 0 c1ctxA c1ctxB TH_SYN [1, 2, 3]).1 = true ∧
     (logpkt_write_payload (envOk (fun _ => 0)) 0 c1ctxA c1ctxB TH_SYN
        [1, 2, 3]).2.1.seq ≠ (c1ctxA.seq + 3) % U32) ∧
    ((logpkt_write_payload (envOk (fun _ => 0)) 0 c1ctxA c1ctxBtop 0 [7]).1 = true ∧
     (logpkt_write_payload (envOk (fun _ => 0)) 0 c1ctxA c1ctxBtop 0
        [7]).2.2.1.ack ≠ c1ctxBtop.ack + 1) := by
  decide

/-- C1, amended: provided the flags do not include SYN, a successful
send_payload(A, B, flags, P) leaves the acknowledgment counter of B at
its prior value plus len(P) modulo 2^32, and the sequence counter of A
at its prior value plus len(P) modulo 2^32, regardless of how P is
split into chunks. -/
theorem c1_sendPayload_counters (env : Env) (n : Nat) (a b : PcapCtx) (flags : Nat)
    (p : List Nat)
    (hflags : flags &&& TH_SYN = 0) (ha : a.seq < U32) (hb : b.ack < U32)
    (hs : (logpkt_write_payload env n a b flags p).1 = true) :
    (logpkt_write_payload env n a b flags p).2.2.1.ack = (b.ack + p.length) % U32 ∧
    (logpkt_write_payload env n a b flags p).2.1.seq = (a.seq + p.length) % U32 := by
  unfold logpkt_write_payload at hs ⊢
  exact ⟨(writePayloadGo_spec env flags p.length p n a b (Nat.le_refl _) hb hs).2.2.2,
         writePayloadGo_seq env flags hflags p.length p n a b (Nat.le_refl _) ha hs⟩

/-- Witness for c1_sendPayload_counters: the concrete scenario of the
spec, contexts A (seq 1000) and B (ack 2000), payload "hello" with
flags PSH and ACK, ending with A.seq 1005 and B.ack 2005. -/
theorem c1_witness :
    ((24 &&& TH_SYN = 0) ∧
     (1000 : Nat) < U32 ∧ (2000 : Nat) < U32 ∧
     (logpkt_write_payload (envOk (fun _ => 77)) 0
        { af := 2, src_ip := 1, dst_ip := 2, src_port := 80, dst_port := 443,
          seq := 1000, ack := 0 }
        { af := 2, src_ip := 2, dst_ip := 1, src_port := 443, dst_port := 80,
          seq := 5000, ack := 2000 }
        24 [104, 101, 108, 108, 111]).1 = true) ∧
    (logpkt_write_payload (envOk (fun _ => 77)) 0
        { af := 2, src_ip := 1, dst_ip := 2, src_port := 80, dst_port := 443,
          seq := 1000, ack := 0 }
        { af := 2, src_ip := 2, dst_ip := 1, src_port := 443, dst_port := 80,
          seq := 5000, ack := 2000 }
        24 [104, 101, 108, 108, 111]).2.2.1.ack = (2000 + 5) % U32 ∧
    (logpkt_write_payload (envOk (fun _ => 77)) 0
        { af := 2, src_ip := 1, dst_ip := 2, src_port := 80, dst_port := 443,
          seq := 1000, ack := 0 }
        { af := 2, src_ip := 2, dst_ip := 1, src_port := 443, dst_port := 80,
          seq := 5000, ack := 2000 }
        24 [104, 101, 108, 108, 111]).2.1.seq = (1000 + 5) % U32 :=
  ⟨⟨by decide, by decide, by decide, by decide⟩,
   c1_sendPayload_counters (envOk (fun _ => 77)) 0
     { af := 2, src_ip := 1, dst_ip := 2, src_port := 80, dst_port := 443,
       seq := 1000, ack := 0 }
     { af := 2, src_ip := 2, dst_ip := 1, src_port := 443, dst_port := 80,
       seq := 5000, ack := 2000 }
     24 [104, 101, 108, 108, 111] (by decide) (by decide) (by decide) (by decide)⟩

/-- A sender context used for concrete witness runs. -/
def ctxA0 : PcapCtx :=
  { af := 2, src_ip := 1, dst_ip := 2, src_port := 80, dst_port := 443,
    seq := 1000, ack := 0 }

/-- A receiver context used for concrete witness runs. -/
def ctxB0 : PcapCtx :=
  { af := 2, src_ip := 2, dst_ip := 1, src_port := 443, dst_port := 80,
    seq := 5000, ack := 2000 }

/-- A payload longer than one maximum segment (1421 bytes). -/
def bigPayload : List Nat := List.replicate 1421 0

/-- C2: a successful send_payload of a payload longer than 1420 bytes
dispatches exactly ceil(len(P) / 1420) data frames, each data frame
payload is at most 1420 bytes, and the concatenation of the dispatched
chunks in dispatch order is exactly P. -/
theorem c2_segmentation (env : Env) (n : Nat) (a b : PcapCtx) (flags : Nat) (p : List Nat)
    (hlong : 1420 < p.length)
    (hs : (logpkt_write_payload env n a b flags p).1 = true) :
    (dataPayloads (logpkt_write_payload env n a b flags p).2.2.2).length
      = (p.length + 1419) / 1420 ∧
    (∀ c ∈ dataPayloads (logpkt_write_payload env n a b flags p).2.2.2,
      c.length ≤ 1420) ∧
    (dataPayloads (logpkt_write_payload env n a b flags p).2.2.2).flatten = p := by
  unfold logpkt_write_payload at hs ⊢
  rw [writePayloadGo_data env flags p.length p n a b (Nat.le_refl _) hs]
  refine ⟨?_, ?_, mssChunks_flatten _ _ (Nat.le_refl _)⟩
  · rw [mssChunks_length _ _ (Nat.le_refl _)]
    norm_num [MSS_VAL]
  · intro c hc
    exact mssChunks_le _ _ _ hc

set_option maxRecDepth 100000 in
/-- Witness for c2_segmentation: a 1421-byte payload is dispatched as
two chunks whose concatenation is the payload. -/
theorem c2_witness :
    (1420 < bigPayload.length ∧
     (logpkt_write_payload (envOk (fun _ => 0)) 0 ctxA0 ctxB0 24 bigPayload).1 = true) ∧
    ((dataPayloads (logpkt_write_payload (envOk (fun _ => 0)) 0 ctxA0 ctxB0 24
        bigPayload).2.2.2).length = (bigPayload.length + 1419) / 1420 ∧
     (∀ c ∈ dataPayloads (logpkt_write_payload (envOk (fun _ => 0)) 0 ctxA0 ctxB0 24
        bigPayload).2.2.2, c.length ≤ 1420) ∧
     (dataPayloads (logpkt_write_payload (envOk (fun _ => 0)) 0 ctxA0 ctxB0 24
        bigPayload).2.2.2).flatten = bigPayload) :=
  ⟨⟨by decide, by decide⟩,
   c2_segmentation (envOk (fun _ => 0)) 0 ctxA0 ctxB0 24 bigPayload
     (by decide) (by decide)⟩

/-- C3: a successful send_payload emits exactly one frame built from
the receiver context, it is the last dispatched frame, it carries the
ACK flag only with an empty payload, and its acknowledgment field is
the updated value prior-ack + len(P) modulo 2^32. -/
theorem c3_trailing_ack (env : Env) (n : Nat) (a b : PcapCtx) (flags : Nat) (p : List Nat)
    (hb : b.ack < U32)
    (hs : (logpkt_write_payload env n a b flags p).1 = true) :
    ((logpkt_write_payload env n a b flags p).2.2.2).map Prod.fst
      = List.replicate ((logpkt_write_payload env n a b flags p).2.2.2.length - 1)
          false ++ [true] ∧
    ((logpkt_write_payload env n a b flags p).2.2.2).getLast?
      = some (true, { src_port := b.src_port, dst_port := b.dst_port, seq := b.seq,
                      ack := (b.ack + p.length) % U32, flags := TH_ACK,
                      payload := [] }) := by
  unfold logpkt_write_payload at hs ⊢
  obtain ⟨_, h2, h3, _⟩ :=
    writePayloadGo_spec env flags p.length p n a b (Nat.le_refl _) hb hs
  have hlen : (logpkt_write_payload_go env p.length n a b flags p).2.2.2.length
      = (mssChunks p.length p).length + 1 := by
    have hc := congrArg List.length h2
    simpa using hc
  refine ⟨?_, h3⟩
  rw [h2, hlen]
  simp

/-- Witness for c3_trailing_ack: the empty-payload case still emits
exactly the one trailing pure-ACK frame. -/
theorem c3_witness :
    (ctxB0.ack < U32 ∧
     (logpkt_write_payload (envOk (fun _ => 0)) 0 ctxA0 ctxB0 24 []).1 = true) ∧
    (((logpkt_write_payload (envOk (fun _ => 0)) 0 ctxA0 ctxB0 24 []).2.2.2).map Prod.fst
      = List.replicate
          ((logpkt_write_payload (envOk (fun _ => 0)) 0 ctxA0 ctxB0 24 []).2.2.2.length - 1)
          false ++ [true] ∧
     ((logpkt_write_payload (envOk (fun _ => 0)) 0 ctxA0 ctxB0 24 []).2.2.2).getLast?
      = some (true, { src_port := ctxB0.src_port, dst_port := ctxB0.dst_port,
                      seq := ctxB0.seq, ack := (ctxB0.ack + 0) % U32,
                      flags := TH_ACK, payload := [] })) :=
  ⟨⟨by decide, by decide⟩,
   c3_trailing_ack (envOk (fun _ => 0)) 0 ctxA0 ctxB0 24 [] (by decide) (by decide)⟩

/-- C9: when logpkt_build_packet fails at any layer-construction step,
the context sequence is not advanced by the payload length; with the
SYN flag it has nevertheless been overwritten with the fresh random
draw before any layer was built, and in a multi-chunk SYN-flagged
send_payload every dispatched chunk carries its own fresh random draw
as its sequence number. -/
theorem c9_syn_randomization :
    (∀ (env : Env) (n : Nat) (ctx : PcapCtx) (flags : Nat) (p : List Nat),
      (logpkt_build_packet env n ctx flags p).1 = none →
      (logpkt_build_packet env n ctx flags p).2
        = if flags &&& TH_SYN ≠ 0 then { ctx with seq := env.randSeq n % U32 }
          else ctx) ∧
    (∀ (env : Env) (n : Nat) (a b : PcapCtx) (flags : Nat) (p : List Nat),
      flags &&& TH_SYN ≠ 0 →
      (logpkt_write_payload env n a b flags p).1 = true →
      dataSeqs (logpkt_write_payload env n a b flags p).2.2.2
        = (List.range ((p.length + 1419) / 1420)).map
            (fun i => env.randSeq (n + i) % U32)) := by
  constructor
  · intro env n ctx flags p h
    unfold logpkt_build_packet at h ⊢
    split_ifs at h ⊢ <;> simp_all
  · intro env n a b flags p hflags hs
    unfold logpkt_write_payload at hs ⊢
    rw [writePayloadGo_seq_syn env flags hflags p.length p n a b (Nat.le_refl _) hs]
    rw [mssChunks_length _ _ (Nat.le_refl _)]
    norm_num [MSS_VAL]

/-- Environment for the C9 witness in which TCP header construction fails. -/
def envTcpFail : Env :=
  { randSeq := fun _ => 777, tcpOk := fun _ => false, ipOk := fun _ => true,
    ethOk := fun _ => true, dispatchOk := fun _ => true }

set_option maxRecDepth 100000 in
/-- Witness for c9_syn_randomization: a failing SYN-flagged build still
replaces the sequence with the draw 777, and a two-chunk SYN-flagged
send writes draws 1000 and 1001 as the chunk sequence numbers. -/
theorem c9_witness :
    ((logpkt_build_packet envTcpFail 0 ctxA0 TH_SYN [1, 2]).1 = none ∧
     (logpkt_build_packet envTcpFail 0 ctxA0 TH_SYN [1, 2]).2
       = if TH_SYN &&& TH_SYN ≠ 0 then { ctxA0 with seq := envTcpFail.randSeq 0 % U32 }
         else ctxA0) ∧
    ((TH_SYN &&& TH_SYN ≠ 0) ∧
     (logpkt_write_payload (envOk (fun k => 1000 + k)) 0 ctxA0 ctxB0 TH_SYN
        bigPayload).1 = true) ∧
    dataSeqs (logpkt_write_payload (envOk (fun k => 1000 + k)) 0 ctxA0 ctxB0 TH_SYN
        bigPayload).2.2.2
      = (List.range ((bigPayload.length + 1419) / 1420)).map
          (fun i => (envOk (fun k => 1000 + k)).randSeq (0 + i) % U32) :=
  ⟨⟨by decide, c9_syn_randomization.1 envTcpFail 0 ctxA0 TH_SYN [1, 2] (by decide)⟩,
   ⟨by decide, by decide⟩,
   c9_syn_randomization.2 (envOk (fun k => 1000 + k)) 0 ctxA0 ctxB0 TH_SYN bigPayload
     (by decide) (by decide)⟩

/-- C10: when send_payload fails partway through, the receiver context
acknowledgment counter has been increased (modulo 2^32) by exactly the
total length of the chunks successfully dispatched before the failure;
the chunk whose dispatch failed contributes nothing. -/
theorem c10_partial_ack (env : Env) (n : Nat) (a b : PcapCtx) (flags : Nat) (p : List Nat)
    (hb : b.ack < U32)
    (hf : (logpkt_write_payload env n a b flags p).1 = false) :
    (logpkt_write_payload env n a b flags p).2.2.1.ack
      = (b.ack + ((dataPayloads (logpkt_write_payload env n a b flags p).2.2.2).map
          List.length).sum) % U32 := by
  unfold logpkt_write_payload
  exact writePayloadGo_ack env flags p.length p n a b (Nat.le_refl _) hb

/-- Environment in which only the very first dispatch succeeds. -/
def envFirstOnly : Env :=
  { randSeq := fun _ => 0, tcpOk := fun _ => true, ipOk := fun _ => true,
    ethOk := fun _ => true, dispatchOk := fun k => k == 0 }

/-- Witness for c10_partial_ack: the data chunk is dispatched, the
trailing ACK write fails, and the acknowledgment has grown by exactly
the dispatched 3 bytes. -/
theorem c10_witness :
    (ctxB0.ack < U32 ∧
     (logpkt_write_payload envFirstOnly 0 ctxA0 ctxB0 24 [1, 2, 3]).1 = false) ∧
    (logpkt_write_payload envFirstOnly 0 ctxA0 ctxB0 24 [1, 2, 3]).2.2.1.ack
      = (ctxB0.ack + ((dataPayloads (logpkt_write_payload envFirstOnly 0 ctxA0 ctxB0 24
          [1, 2, 3]).2.2.2).map List.length).sum) % U32 :=
  ⟨⟨by decide, by decide⟩,
   c10_partial_ack envFirstOnly 0 ctxA0 ctxB0 24 [1, 2, 3] (by decide) (by decide)⟩

/-- C5 counterexample: a one-byte file is non-empty with leading bytes
that do not match the magic, yet logpkt_pcap_open_fd returns -1 (the
header-sized read transfers fewer bytes than requested) and leaves the
prior content in place instead of a freshly written global header. -/
theorem c5_counterexample :
    (0 < ({ content := [0], pos := 0 } : FileState).content.length ∧
     le32dec (([0] : List Nat).take 4) ≠ PCAP_MAGIC) ∧
    (logpkt_pcap_open_fd { content := [0], pos := 0 }).1 ≠ 0 ∧
    (logpkt_pcap_open_fd { content := [0], pos := 0 }).2.content
      ≠ pcap_file_hdr_bytes := by
  decide

/-- C5, amended: for every file of at least header size (24 bytes)
whose leading 4 bytes do not decode to the magic constant,
logpkt_pcap_open_fd truncates the file, writes a fresh global header
as its only content, and returns success. -/
theorem c5_foreign_reset (fs : FileState)
    (hlen : 24 ≤ fs.content.length)
    (hmagic : le32dec (fs.content.take 4) ≠ PCAP_MAGIC) :
    logpkt_pcap_open_fd fs = (0, { content := pcap_file_hdr_bytes, pos := 24 }) := by
  unfold logpkt_pcap_open_fd
  have hpos : 0 < fs.content.length := by omega
  have htake : (fs.content.take 24).length = 24 := by
    rw [List.length_take]
    omega
  have htake4 : (fs.content.take 24).take 4 = fs.content.take 4 := by
    rw [List.take_take]
    norm_num
  rw [if_pos hpos, if_neg (by rw [htake]; exact fun hcon => hcon rfl), htake4,
    if_neg hmagic]
  rfl

/-- Witness for c5_foreign_reset: a 24-byte all-zero file is reset to
the fresh global header. -/
theorem c5_witness :
    (24 ≤ (List.replicate 24 (0 : Nat)).length ∧
     le32dec ((List.replicate 24 (0 : Nat)).take 4) ≠ PCAP_MAGIC) ∧
    logpkt_pcap_open_fd { content := List.replicate 24 0, pos := 0 }
      = (0, { content := pcap_file_hdr_bytes, pos := 24 }) :=
  ⟨⟨by decide, by decide⟩,
   c5_foreign_reset { content := List.replicate 24 0, pos := 0 } (by decide) (by decide)⟩

/-- C6 counterexample: a 4-byte file holding exactly the magic bytes
has matching leading magic, yet logpkt_pcap_open_fd fails with -1
instead of seeking to end-of-file and succeeding, because the
header-sized read transfers only 4 bytes. -/
theorem c6_counterexample :
    le32dec ((le32 PCAP_MAGIC).take 4) = PCAP_MAGIC ∧
    (logpkt_pcap_open_fd { content := le32 PCAP_MAGIC, pos := 0 }).1 = -1 := by
  decide

/-- C6, amended: on a zero-length file logpkt_pcap_open_fd writes the
24-byte global header (magic 0xA1B2C3D4, version 2.4, snaplen 1500,
network 1) and leaves the position at end-of-header; on a file of at
least header size whose first 4 bytes decode to the magic it succeeds
leaving the content unmodified and the position at end-of-file. -/
theorem c6_open_paths :
    (∀ (pos : Nat), logpkt_pcap_open_fd { content := [], pos := pos }
      = (0, { content := pcap_file_hdr_bytes, pos := 24 })) ∧
    (∀ (fs : FileState), 24 ≤ fs.content.length →
      le32dec (fs.content.take 4) = PCAP_MAGIC →
      logpkt_pcap_open_fd fs = (0, { content := fs.content, pos := fs.content.length })) := by
  constructor
  · intro pos
    rfl
  · intro fs hlen hmagic
    unfold logpkt_pcap_open_fd
    have hpos : 0 < fs.content.length := by omega
    have htake : (fs.content.take 24).length = 24 := by
      rw [List.length_take]
      omega
    have htake4 : (fs.content.take 24).take 4 = fs.content.take 4 := by
      rw [List.take_take]
      norm_num
    rw [if_pos hpos, if_neg (by rw [htake]; exact fun hcon => hcon rfl), htake4,
      if_pos hmagic]

/-- Witness for c6_open_paths: the empty file receives the header, and
a 25-byte capture beginning with the written header bytes is appended
to at position 25 without modification. -/
theorem c6_witness :
    ((24 ≤ (pcap_file_hdr_bytes ++ [7]).length ∧
      le32dec ((pcap_file_hdr_bytes ++ [7]).take 4) = PCAP_MAGIC) ∧
     logpkt_pcap_open_fd { content := [], pos := 0 }
       = (0, { content := pcap_file_hdr_bytes, pos := 24 })) ∧
    logpkt_pcap_open_fd { content := pcap_file_hdr_bytes ++ [7], pos := 0 }
      = (0, { content := pcap_file_hdr_bytes ++ [7],
              pos := (pcap_file_hdr_bytes ++ [7]).length }) :=
  ⟨⟨⟨by decide, by decide⟩, c6_open_paths.1 0⟩,
   c6_open_paths.2 { content := pcap_file_hdr_bytes ++ [7], pos := 0 }
     (by decide) (by decide)⟩

/-!
## IPv4 text-address conversion (logpkt_str2ip46addr, AF_INET branch)

The address text is a character list.  inet_addr is the libc
collaborator; it is modelled on the strict dotted-decimal form
a.b.c.d (four decimal octets, each at most 255), returning the packed
address value, and INADDR_NONE (the all-ones value, not 0) when the
text does not parse — exactly the POSIX contract the code relies on.
-/

/-- Split a character list at the dot separators. -/
def splitDots : List Char → List (List Char)
  | [] => [[]]
  | c :: cs =>
    if c = '.' then [] :: splitDots cs
    else
      match splitDots cs with
      | [] => [[c]]
      | g :: gs => (c :: g) :: gs

/-- Accumulating decimal reading of a digit group; none on a non-digit. -/
def parseDecimalAux : List Char → Nat → Option Nat
  | [], acc => some acc
  | c :: cs, acc =>
    if 48 ≤ c.toNat ∧ c.toNat ≤ 57 then parseDecimalAux cs (acc * 10 + (c.toNat - 48))
    else none

/-- Decimal reading of a non-empty digit group. -/
def parseDecimal : List Char → Option Nat
  | [] => none
  | c :: cs => parseDecimalAux (c :: cs) 0

/-- Dotted-decimal IPv4 parse: four decimal octets, each at most 255,
packed a.b.c.d into the 32-bit address value. -/
def parseIPv4 (s : List Char) : Option Nat :=
  match (splitDots s).map parseDecimal with
  | [some x1, some x2, some x3, some x4] =>
    if x1 ≤ 255 ∧ x2 ≤ 255 ∧ x3 ≤ 255 ∧ x4 ≤ 255 then
      some (x1 * 16777216 + x2 * 65536 + x3 * 256 + x4)
    else none
  | _ => none

/-- Modelled libc collaborator inet_addr: the parsed address value, or
INADDR_NONE when the text does not parse as an IPv4 address. -/
def inet_addr (s : List Char) : Nat :=
  match parseIPv4 s with
  | some v => v
  | none => INADDR_NONE

/-- The AF_INET branch of logpkt_str2ip46addr (logpkt.c 137-147): the
converted value is stored into *ip4addr, then the value 0 — not
INADDR_NONE — is treated as the conversion failure; none models the
-1 error return, some the stored address on the 0 return. -/
def logpkt_str2ip46addr_inet (addr : List Char) : Option Nat :=
  let ip4 := inet_addr addr
  if ip4 = 0 then none else some ip4

/-- C4 fails on the code: the text 0.0.0.0 is a well-formed IPv4
address (it parses to the value 0) yet logpkt_str2ip46addr rejects it
with the conversion error, while the text 256.1.1.1 does not parse
(inet_addr returns INADDR_NONE) yet the function accepts it, storing
INADDR_NONE as the address; the error check tests the stored value
against 0 instead of against INADDR_NONE. -/
theorem c4_code_bug :
    parseIPv4 ("0.0.0.0".toList) = some 0 ∧
    logpkt_str2ip46addr_inet ("0.0.0.0".toList) = none ∧
    parseIPv4 ("256.1.1.1".toList) = none ∧
    logpkt_str2ip46addr_inet ("256.1.1.1".toList) = some INADDR_NONE := by
  decide

/-!
## Hardware-address resolution (logpkt_recv_arp_reply, logpkt_ether_lookup)

Observed frames are raw byte lists.  The 802.3 header occupies bytes
0-13 (destination 0-5, source 6-11, type 12-13); the ARP header
bytes 14-21 (hardware type 14-15, protocol type 16-17, hardware size
18, protocol size 19, operation 20-21); the sender hardware address
starts at byte 22, and the sender protocol address at byte
14 + 8 + hardware-size, matching the pointer arithmetic of the code.
16-bit fields are read big-endian, the value htons recovers from the
wire.  Request transmission and window observation are assumed to
succeed; the frames each window yields are an oracle (at most the
1000-frame dispatch bound per window is assumed).
-/

/-- ARPOP_REPLY, the reply operation code. -/
def ARPOP_REPLY : Nat := 2

/-- ETHERTYPE_IP, the IPv4 protocol type. -/
def ETHERTYPE_IP : Nat := 0x0800

/-- ARPHRD_ETHER, the Ethernet hardware type. -/
def ARPHRD_ETHER : Nat := 1

/-- Big-endian 16-bit field of a raw frame at a byte offset. -/
def be16at (p : List Nat) (off : Nat) : Nat :=
  p.getD off 0 * 256 + p.getD (off + 1) 0

/-- n bytes of a raw frame from a byte offset. -/
def bytesAt (p : List Nat) (off n : Nat) : List Nat :=
  (p.drop off).take n

/-- logpkt_recv_arp_reply_ctx_t (logpkt.c 381-385): target IP (4 bytes
in wire order), result flag, captured hardware address. -/
structure ArpCtx where
  ip : List Nat
  result : Int
  ether : List Nat

deriving instance DecidableEq, Repr for ArpCtx

/-- logpkt_recv_arp_reply (logpkt.c 387-417) on one raw frame: skip
unless the operation is a reply, the protocol type IPv4, the hardware
type Ethernet, the sender protocol address equals the target IP, and
the sender hardware address equals the 802.3 source address; on a
match store the sender hardware address and set result to 0. -/
def logpkt_recv_arp_reply (ctx : ArpCtx) (packet : List Nat) : ArpCtx :=
  if be16at packet 20 ≠ ARPOP_REPLY then ctx
  else if be16at packet 16 ≠ ETHERTYPE_IP then ctx
  else if be16at packet 14 ≠ ARPHRD_ETHER then ctx
  else if bytesAt packet (14 + 8 + packet.getD 18 0) 4 ≠ ctx.ip then ctx
  else if bytesAt packet 22 6 ≠ bytesAt packet 6 6 then ctx
  else { ctx with ether := bytesAt packet 22 6, result := 0 }

/-- The five filters of the resolution contract, as one predicate. -/
def arpAccepts (ip : List Nat) (packet : List Nat) : Bool :=
  (be16at packet 20 == ARPOP_REPLY) &&
  (be16at packet 16 == ETHERTYPE_IP) &&
  (be16at packet 14 == ARPHRD_ETHER) &&
  (bytesAt packet (14 + 8 + packet.getD 18 0) 4 == ip) &&
  (bytesAt packet 22 6 == bytesAt packet 6 6)

/-- pcap_dispatch (logpkt.c 500-506): the callback runs on each frame
observed in the window, in order. -/
def pcap_dispatch_arp (ctx : ArpCtx) (frames : List (List Nat)) : ArpCtx :=
  frames.foldl logpkt_recv_arp_reply ctx

/-- The do-while retry loop of logpkt_ether_lookup (logpkt.c 495-513):
each iteration broadcasts one request, processes the frames of that
window, and repeats while no reply matched and the decremented count
stays positive.  Returns the final context and the attempts made. -/
def etherLookupLoop (obs : Nat → List (List Nat)) :
    Nat → Nat → ArpCtx → ArpCtx × Nat
  | 0, k, ctx => (ctx, k)
  | count + 1, k, ctx =>
    let ctx1 := pcap_dispatch_arp ctx (obs k)
    if ctx1.result = -1 ∧ 0 < count then etherLookupLoop obs count (k + 1) ctx1
    else (ctx1, k + 1)

/-- The resolution loop of logpkt_ether_lookup (logpkt.c 422-529): the
result starts at -1 and count at 50. -/
def logpkt_ether_lookup (obs : Nat → List (List Nat)) (targetIp : List Nat) :
    ArpCtx × Nat :=
  etherLookupLoop obs 50 0 { ip := targetIp, result := -1, ether := [0, 0, 0, 0, 0, 0] }

theorem recv_arp_reply_eq (ctx : ArpCtx) (p : List Nat) :
    logpkt_recv_arp_reply ctx p
      = if arpAccepts ctx.ip p then { ctx with result := 0, ether := bytesAt p 22 6 }
        else ctx := by
  unfold logpkt_recv_arp_reply arpAccepts
  split_ifs with h1 h2 h3 h4 h5 <;> simp_all

theorem recv_arp_reply_ip (ctx : ArpCtx) (p : List Nat) :
    (logpkt_recv_arp_reply ctx p).ip = ctx.ip := by
  rw [recv_arp_reply_eq]
  split_ifs <;> rfl

theorem pcap_dispatch_arp_char : ∀ (frames : List (List Nat)) (ctx : ArpCtx),
    pcap_dispatch_arp ctx frames
      = match (frames.filter (arpAccepts ctx.ip)).getLast? with
        | none => ctx
        | some q => { ctx with result := 0, ether := bytesAt q 22 6 } := by
  intro frames
  induction frames with
  | nil => intro ctx; rfl
  | cons p rest ih =>
    intro ctx
    show pcap_dispatch_arp (logpkt_recv_arp_reply ctx p) rest = _
    rw [ih (logpkt_recv_arp_reply ctx p)]
    rw [recv_arp_reply_ip]
    rcases hacc : arpAccepts ctx.ip p with _ | _
    · simp only [List.filter_cons, hacc, recv_arp_reply_eq, if_neg]
      simp [hacc]
    · simp only [List.filter_cons, hacc, recv_arp_reply_eq, if_pos]
      rcases hrest : rest.filter (arpAccepts ctx.ip) with _ | ⟨q, qs⟩
      · simp [hacc]
      · rw [List.getLast?_cons_cons]
        rcases hlast : (q :: qs).getLast? with _ | q0
        · simp at hlast
        · simp [hacc]

theorem pcap_dispatch_arp_no_match (frames : List (List Nat)) (ctx : ArpCtx)
    (h : ∀ p ∈ frames, arpAccepts ctx.ip p = false) :
    pcap_dispatch_arp ctx frames = ctx := by
  rw [pcap_dispatch_arp_char]
  have hfilter : frames.filter (arpAccepts ctx.ip) = [] := by
    rw [List.filter_eq_nil]
    intro p hp
    simp [h p hp]
  rw [hfilter]
  rfl

theorem etherLookupLoop_no_match (obs : Nat → List (List Nat)) :
    ∀ (count k : Nat) (ctx : ArpCtx), ctx.result = -1 →
    (∀ j, j < count → ∀ p ∈ obs (k + j), arpAccepts ctx.ip p = false) →
    etherLookupLoop obs count k ctx = (ctx, k + count) := by
  intro count
  induction count with
  | zero => intro k ctx _ _; rfl
  | succ count ih =>
    intro k ctx hres hnone
    have h0 : pcap_dispatch_arp ctx (obs k) = ctx :=
      pcap_dispatch_arp_no_match _ _ (by
        intro p hp
        have := hnone 0 (Nat.succ_pos _) p
        rw [Nat.add_zero] at this
        exact this hp)
    show (if (pcap_dispatch_arp ctx (obs k)).result = -1 ∧ 0 < count then
        etherLookupLoop obs count (k + 1) (pcap_dispatch_arp ctx (obs k))
      else (pcap_dispatch_arp ctx (obs k), k + 1)) = (ctx, k + count + 1)
    rw [h0]
    rcases Nat.eq_zero_or_pos count with hc | hc
    · subst hc
      rw [if_neg (by simp)]
    · rw [if_pos ⟨hres, hc⟩]
      rw [ih (k + 1) ctx hres (by
        intro j hj p hp
        have := hnone (j + 1) (by omega) p
        rw [show k + (j + 1) = k + 1 + j by omega] at this
        exact this hp)]
      rw [Prod.mk.injEq]
      exact ⟨rfl, by omega⟩

/-- C7: when no observed frame passes all filters in any of the 50
windows, the resolution loop of logpkt_ether_lookup performs exactly
50 attempts and terminates with the error result -1, the context
otherwise unchanged. -/
theorem c7_retry_bound (obs : Nat → List (List Nat)) (ip : List Nat)
    (hnone : ∀ k, k < 50 → ∀ p ∈ obs k, arpAccepts ip p = false) :
    logpkt_ether_lookup obs ip
      = ({ ip := ip, result := -1, ether := [0, 0, 0, 0, 0, 0] }, 50) := by
  unfold logpkt_ether_lookup
  have h := etherLookupLoop_no_match obs 50 0
    { ip := ip, result := -1, ether := [0, 0, 0, 0, 0, 0] } rfl (by
      intro j hj p hp
      rw [Nat.zero_add] at hp
      exact hnone j (by omega) p hp)
  rw [h]

/-- Witness for c7_retry_bound: with no frames observed at all, the
lookup makes 50 attempts and fails. -/
theorem c7_witness :
    (∀ k, k < 50 → ∀ p ∈ ([] : List (List Nat)), arpAccepts [10, 0, 0, 9] p = false) ∧
    logpkt_ether_lookup (fun _ => []) [10, 0, 0, 9]
      = ({ ip := [10, 0, 0, 9], result := -1, ether := [0, 0, 0, 0, 0, 0] }, 50) :=
  ⟨fun _ _ p hp => absurd hp (List.not_mem_nil p),
   c7_retry_bound (fun _ => []) [10, 0, 0, 9]
     (fun _ _ p hp => absurd hp (List.not_mem_nil p))⟩

theorem etherLookupLoop_succ (obs : Nat → List (List Nat)) (count k : Nat)
    (ctx : ArpCtx) :
    etherLookupLoop obs (count + 1) k ctx
      = if (pcap_dispatch_arp ctx (obs k)).result = -1 ∧ 0 < count then
          etherLookupLoop obs count (k + 1) (pcap_dispatch_arp ctx (obs k))
        else (pcap_dispatch_arp ctx (obs k), k + 1) := rfl

theorem etherLookupLoop_first_match (obs : Nat → List (List Nat)) (ip : List Nat) :
    ∀ (k0 count k : Nat) (ctx : ArpCtx), ctx.ip = ip → ctx.result = -1 →
    k0 < count →
    (∀ j, j < k0 → ∀ p ∈ obs (k + j), arpAccepts ip p = false) →
    ((obs (k + k0)).filter (arpAccepts ip)) ≠ [] →
    (etherLookupLoop obs count k ctx).1.result = 0 ∧
    (etherLookupLoop obs count k ctx).2 = k + k0 + 1 ∧
    some ((etherLookupLoop obs count k ctx).1.ether)
      = (((obs (k + k0)).filter (arpAccepts ip)).getLast?).map
          (fun q => bytesAt q 22 6) := by
  intro k0
  induction k0 with
  | zero =>
    intro count k ctx hip hres hcount hbefore hmatch
    obtain ⟨count, rfl⟩ : ∃ c, count = c + 1 :=
      ⟨count - 1, by omega⟩
    simp only [Nat.add_zero] at hmatch ⊢
    rcases hlast : ((obs k).filter (arpAccepts ip)).getLast? with _ | q
    · exact absurd (List.getLast?_eq_none_iff.mp hlast) hmatch
    · have hdisp : pcap_dispatch_arp ctx (obs k)
          = { ctx with result := 0, ether := bytesAt q 22 6 } := by
        rw [pcap_dispatch_arp_char, hip, hlast]
      rw [etherLookupLoop_succ, hdisp, if_neg (by simp)]
      exact ⟨rfl, rfl, rfl⟩
  | succ k0 ih =>
    intro count k ctx hip hres hcount hbefore hmatch
    obtain ⟨count, rfl⟩ : ∃ c, count = c + 1 :=
      ⟨count - 1, by omega⟩
    have h0 : pcap_dispatch_arp ctx (obs k) = ctx :=
      pcap_dispatch_arp_no_match _ _ (by
        rw [hip]
        intro p hp
        have := hbefore 0 (Nat.succ_pos _) p
        rw [Nat.add_zero] at this
        exact this hp)
    rw [etherLookupLoop_succ, h0, if_pos ⟨hres, by omega⟩]
    have hr := ih count (k + 1) ctx hip hres (by omega) (by
        intro j hj p hp
        rw [show k + 1 + j = k + (j + 1) by omega] at hp
        exact hbefore (j + 1) (by omega) p hp)
      (by rw [show k + 1 + k0 = k + (k0 + 1) by omega]; exact hmatch)
    refine ⟨hr.1, ?_, ?_⟩
    · rw [hr.2.1]
      omega
    · rw [hr.2.2, show k + 1 + k0 = k + (k0 + 1) by omega]

/-- C8, amended: the callback accepts a frame exactly when it passes
all five filters (reply operation, IPv4 protocol type, Ethernet
hardware type, sender protocol address equal to the target IP, sender
hardware address equal to the 802.3 source address), and when the
first window containing a passing frame is reached within the 50
attempts, the lookup succeeds on that attempt returning the hardware
address carried by the LAST frame of that window that passes every
filter. -/
theorem c8_filter_and_result :
    (∀ (ctx : ArpCtx) (p : List Nat),
      logpkt_recv_arp_reply ctx p
        = if arpAccepts ctx.ip p then
            { ctx with result := 0, ether := bytesAt p 22 6 }
          else ctx) ∧
    (∀ (obs : Nat → List (List Nat)) (ip : List Nat) (k0 : Nat),
      k0 < 50 →
      (∀ j, j < k0 → ∀ p ∈ obs j, arpAccepts ip p = false) →
      ((obs k0).filter (arpAccepts ip)) ≠ [] →
      (logpkt_ether_lookup obs ip).1.result = 0 ∧
      (logpkt_ether_lookup obs ip).2 = k0 + 1 ∧
      some ((logpkt_ether_lookup obs ip).1.ether)
        = (((obs k0).filter (arpAccepts ip)).getLast?).map
            (fun q => bytesAt q 22 6)) := by
  refine ⟨recv_arp_reply_eq, ?_⟩
  intro obs ip k0 hk0 hbefore hmatch
  unfold logpkt_ether_lookup
  have h := etherLookupLoop_first_match obs ip k0 50 0
    { ip := ip, result := -1, ether := [0, 0, 0, 0, 0, 0] } rfl rfl hk0
    (by
      intro j hj p hp
      rw [Nat.zero_add] at hp
      exact hbefore j hj p hp)
    (by rw [Nat.zero_add]; exact hmatch)
  rw [Nat.zero_add] at h
  exact h

/-- An ARP reply frame passing every filter: source and sender
hardware address 01:02:03:04:05:06, sender protocol address 10.0.0.9. -/
def arpFrame1 : List Nat :=
  [0, 0, 0, 0, 0, 0, 1, 2, 3, 4, 5, 6, 8, 6,
   0, 1, 8, 0, 6, 4, 0, 2, 1, 2, 3, 4, 5, 6, 10, 0, 0, 9]

/-- An ARP reply frame passing every filter: source and sender
hardware address 09:09:09:09:09:09, sender protocol address 10.0.0.9. -/
def arpFrame2 : List Nat :=
  [0, 0, 0, 0, 0, 0, 9, 9, 9, 9, 9, 9, 8, 6,
   0, 1, 8, 0, 6, 4, 0, 2, 9, 9, 9, 9, 9, 9, 10, 0, 0, 9]

/-- C8 is false as stated: with two frames passing every filter in the
same observation window, the hardware address the lookup returns is
the one of the second (last) passing frame, not of the first. -/
theorem c8_counterexample :
    arpAccepts [10, 0, 0, 9] arpFrame1 = true ∧
    arpAccepts [10, 0, 0, 9] arpFrame2 = true ∧
    (logpkt_ether_lookup (fun _ => [arpFrame1, arpFrame2]) [10, 0, 0, 9]).1.result = 0 ∧
    (logpkt_ether_lookup (fun _ => [arpFrame1, arpFrame2]) [10, 0, 0, 9]).1.ether
      = bytesAt arpFrame2 22 6 ∧
    bytesAt arpFrame2 22 6 ≠ bytesAt arpFrame1 22 6 := by
  decide

/-- The initial callback context for the C8 witness. -/
def arpCtx0 : ArpCtx :=
  { ip := [10, 0, 0, 9], result := -1, ether := [0, 0, 0, 0, 0, 0] }

/-- Witness for c8_filter_and_result: a matching frame in the first
window, whose sender hardware address is returned on attempt 1. -/
theorem c8_witness :
    (logpkt_recv_arp_reply arpCtx0 arpFrame1
      = if arpAccepts arpCtx0.ip arpFrame1 then
          { arpCtx0 with result := 0, ether := bytesAt arpFrame1 22 6 }
        else arpCtx0) ∧
    ((0 : Nat) < 50 ∧
     (([arpFrame1] : List (List Nat)).filter (arpAccepts [10, 0, 0, 9])) ≠ []) ∧
    ((logpkt_ether_lookup (fun _ => [arpFrame1]) [10, 0, 0, 9]).1.result = 0 ∧
     (logpkt_ether_lookup (fun _ => [arpFrame1]) [10, 0, 0, 9]).2 = 0 + 1 ∧
     some ((logpkt_ether_lookup (fun _ => [arpFrame1]) [10, 0, 0, 9]).1.ether)
       = ((([arpFrame1] : List (List Nat)).filter (arpAccepts [10, 0, 0, 9])).getLast?).map
           (fun q => bytesAt q 22 6)) :=
  ⟨c8_filter_and_result.1 arpCtx0 arpFrame1,
   ⟨by decide, by decide⟩,
   c8_filter_and_result.2 (fun _ => [arpFrame1]) [10, 0, 0, 9] 0 (by decide)
     (fun j hj p _ => absurd hj (by omega)) (by decide)⟩
